import Mathlib

/-!
Verification of the timer/lap engine and timeline exporter of the audiohub
application (`src/app.py`).  Python floats are modelled as exact rationals
(the spec describes all timestamps as reals); Python's `int(...)` truncation
toward zero and its `%` / `//` operators on numbers are modelled explicitly.
-/

namespace AudioHub

/-- Python `int(x)` on a number: truncation toward zero. -/
def pyInt (q : ℚ) : ℤ := if 0 ≤ q then ⌊q⌋ else ⌈q⌉

/-- Python `x % y` on numbers (sign follows the divisor): `x - y * ⌊x / y⌋`. -/
def pymod (x y : ℚ) : ℚ := x - y * ⌊x / y⌋

/-- Python `f"{n:0wd}"`: zero-pad the decimal form of `n` to total width `w`,
zeros inserted after the sign. -/
def padZ (w : Nat) (n : ℤ) : String :=
  let sign := if n < 0 then "-" else ""
  let digits := toString n.natAbs
  sign ++ String.mk (List.replicate (w - (sign.length + digits.length)) '0') ++ digits

/-- `format_time` from `src/app.py`: format seconds to `HH:MM:SS.mmm`.
`int(seconds // 3600)` is `⌊seconds / 3600⌋`; the remaining components use
Python `%` (`pymod`) and `int` (`pyInt`) as in the source. -/
def format_time (seconds : ℚ) : String :=
  let hours : ℤ := ⌊seconds / 3600⌋
  let minutes : ℤ := ⌊pymod seconds 3600 / 60⌋
  let secs : ℤ := pyInt (pymod seconds 60)
  let milliseconds : ℤ := pyInt (pymod seconds 1 * 1000)
  padZ 2 hours ++ ":" ++ padZ 2 minutes ++ ":" ++ padZ 2 secs ++ "." ++ padZ 3 milliseconds

/-- `timecode_to_frames` from `src/app.py`: `int(seconds * fps)`. -/
def timecode_to_frames (seconds : ℚ) (fps : ℚ) : ℤ := pyInt (seconds * fps)

/-- The formatting contract as the spec states it: hours `⌊s/3600⌋`, minutes
`⌊(s mod 3600)/60⌋`, whole seconds `⌊s mod 60⌋`, milliseconds
`⌊(s mod 1)·1000⌋`, each zero-padded (2 digits for H/M/S, 3 for ms). -/
def format_time_spec (s : ℚ) : String :=
  padZ 2 ⌊s / 3600⌋ ++ ":" ++ padZ 2 ⌊(s - 3600 * ⌊s / 3600⌋) / 60⌋ ++ ":" ++
    padZ 2 ⌊s - 60 * ⌊s / 60⌋⌋ ++ "." ++ padZ 3 ⌊(s - (⌊s⌋ : ℚ)) * 1000⌋

/-- A section (lap) record, as appended by the Stop Lap handler. -/
structure Lap where
  start_time : ℚ
  end_time : ℚ
  duration : ℚ
  title : String
deriving DecidableEq

/-- One generated-narration entry of `st.session_state.generated_audio`
(audio bytes modelled as a list of byte values). -/
structure AudioItem where
  sectionNo : ℕ
  title : String
  audio : List ℕ
deriving DecidableEq

/-- One generated sound effect of `st.session_state.sfx_requests`. -/
structure SfxItem where
  name : String
  audio : List ℕ
deriving DecidableEq

/-- The Streamlit session state initialised at the top of `src/app.py`.
The script payload is modelled opaquely as its serialized text. -/
structure SessionState where
  running : Bool
  start_time : Option ℚ
  elapsed_time : ℚ
  laps : List Lap
  current_lap_start : ℚ
  audio_data : Option (List ℕ)
  transcription : String
  script : String
  generated_audio : Option (List AudioItem)
  music_request : String
  sfx_requests : List SfxItem
deriving DecidableEq

/-- The initial session state (`running=False`, `start_time=None`,
`elapsed_time=0`, `laps=[]`, `current_lap_start=0`, empty AI artefacts). -/
def initSession : SessionState :=
  { running := false, start_time := none, elapsed_time := 0, laps := [],
    current_lap_start := 0, audio_data := none, transcription := "",
    script := "", generated_audio := none, music_request := "", sfx_requests := [] }

/-- The `current_elapsed` computation of the timer tab:
`elapsed_time + (time.time() - start_time)` if running with a start instant,
otherwise `elapsed_time`. -/
def current_elapsed (s : SessionState) (now : ℚ) : ℚ :=
  match s.start_time with
  | some t => if s.running then s.elapsed_time + (now - t) else s.elapsed_time
  | none => s.elapsed_time

/-- The Start button handler (rendered only when not running): records the
current wall-clock instant and sets `running`. -/
def startOp (s : SessionState) (now : ℚ) : SessionState :=
  if s.running then s else { s with running := true, start_time := some now }

/-- The Pause button handler (rendered only when running): accumulates
`now - start_time` into `elapsed_time` and clears the start instant. -/
def pauseOp (s : SessionState) (now : ℚ) : SessionState :=
  if s.running then
    { s with running := false,
             elapsed_time := s.elapsed_time + (now - s.start_time.getD 0),
             start_time := none }
  else s

/-- The Stop Lap button handler; the button is disabled exactly when
`not running and elapsed_time == 0`. -/
def stopLapOp (s : SessionState) (now : ℚ) : SessionState :=
  if s.running = false ∧ s.elapsed_time = 0 then s
  else
    let lap_end_time := current_elapsed s now
    { s with
      laps := s.laps ++ [{ start_time := s.current_lap_start,
                           end_time := lap_end_time,
                           duration := lap_end_time - s.current_lap_start,
                           title := "Section " ++ toString (s.laps.length + 1) }],
      current_lap_start := lap_end_time }

/-- The lap record the Stop Lap handler appends when it fires. -/
def closedLap (s : SessionState) (now : ℚ) : Lap :=
  { start_time := s.current_lap_start,
    end_time := current_elapsed s now,
    duration := current_elapsed s now - s.current_lap_start,
    title := "Section " ++ toString (s.laps.length + 1) }

/-- The Reset All button handler: clears the five timer fields. -/
def resetOp (s : SessionState) : SessionState :=
  { s with running := false, start_time := none, elapsed_time := 0,
           laps := [], current_lap_start := 0 }

/-- `st.session_state.laps[i]['title'] = new_title`. -/
def renameLaps : List Lap → ℕ → String → List Lap
  | [], _, _ => []
  | lap :: rest, 0, t => { lap with title := t } :: rest
  | lap :: rest, i + 1, t => lap :: renameLaps rest i t

/-- The section-title text input handler. -/
def renameOp (s : SessionState) (i : ℕ) (t : String) : SessionState :=
  { s with laps := renameLaps s.laps i t }

/-- The Delete Section button handler: `st.session_state.laps.pop(i)`. -/
def deleteOp (s : SessionState) (i : ℕ) : SessionState :=
  { s with laps := s.laps.eraseIdx i }

/-- A user-triggered timer operation, each carrying the wall-clock instant
at which its Streamlit rerun evaluates `time.time()`. -/
inductive Op where
  | start (now : ℚ)
  | pause (now : ℚ)
  | stopLap (now : ℚ)
  | reset
  | rename (i : ℕ) (t : String)
  | delete (i : ℕ)
deriving DecidableEq

/-- Dispatch one operation. -/
def applyOp (s : SessionState) : Op → SessionState
  | .start now => startOp s now
  | .pause now => pauseOp s now
  | .stopLap now => stopLapOp s now
  | .reset => resetOp s
  | .rename i t => renameOp s i t
  | .delete i => deleteOp s i

/-- Run a sequence of timer operations. -/
def runOps (s : SessionState) (ops : List Op) : SessionState := ops.foldl applyOp s

/-- An `xml.etree.ElementTree` element: tag, attributes, `.text`, children. -/
inductive Elem where
  | mk (tag : String) (attrs : List (String × String)) (text : Option String)
      (children : List Elem)

def Elem.tag : Elem → String
  | .mk t _ _ _ => t

def Elem.attrs : Elem → List (String × String)
  | .mk _ a _ _ => a

def Elem.text : Elem → Option String
  | .mk _ _ x _ => x

def Elem.children : Elem → List Elem
  | .mk _ _ _ c => c

/-- The `rate` block written for the sequence, the timecode and each clip:
`timebase = fps`, `ntsc = FALSE`. -/
def rateElem (fps : ℤ) : Elem :=
  .mk "rate" [] none
    [.mk "timebase" [] (some (toString fps)) [], .mk "ntsc" [] (some "FALSE") []]

/-- The `clipitem` element built for the `i`-th lap (0-based `i`,
clip id `i+1`) by `generate_resolve_xml`. -/
def clipItem (fps : ℤ) (i : ℕ) (lap : Lap) : Elem :=
  .mk "clipitem" [("id", "clipitem-" ++ toString (i + 1))] none
    [.mk "name" [] (some lap.title) [],
     .mk "duration" [] (some (toString (timecode_to_frames lap.duration fps))) [],
     rateElem fps,
     .mk "in" [] (some "0") [],
     .mk "out" [] (some (toString (timecode_to_frames lap.duration fps))) [],
     .mk "start" [] (some (toString (timecode_to_frames lap.start_time fps))) [],
     .mk "end" [] (some (toString (timecode_to_frames lap.end_time fps))) [],
     .mk "marker" [] none
       [.mk "name" [] (some lap.title) [],
        .mk "comment" [] (some ("Duration: " ++ format_time lap.duration)) [],
        .mk "in" [] (some (toString (timecode_to_frames lap.start_time fps))) [],
        .mk "out" [] (some (toString (timecode_to_frames lap.end_time fps))) []]]

/-- The clip items of `for i, lap in enumerate(laps)`. -/
def clipItemsFrom (fps : ℤ) : ℕ → List Lap → List Elem
  | _, [] => []
  | i, lap :: rest => clipItem fps i lap :: clipItemsFrom fps (i + 1) rest

/-- `generate_resolve_xml` from `src/app.py`, as the element tree it builds
(the final `minidom` pretty-printing is an external serialisation of this
tree).  The sequence duration is
`str(timecode_to_frames(laps[-1]['end_time'], fps) if laps else 0)`. -/
def generate_resolve_xml (laps : List Lap) (fps : ℤ) : Elem :=
  .mk "xmeml" [("version", "4")] none
    [.mk "sequence" [] none
      [.mk "name" [] (some "Audio Tour Timeline") [],
       .mk "duration" []
         (some (toString (match laps.getLast? with
           | some lap => timecode_to_frames lap.end_time (fps : ℚ)
           | none => 0))) [],
       rateElem fps,
       .mk "timecode" [] none
         [rateElem fps,
          .mk "string" [] (some "00:00:00:00") [],
          .mk "frame" [] (some "0") []],
       .mk "media" [] none
         [.mk "video" [] none
           [.mk "track" [] none (clipItemsFrom fps 0 laps)]]]]

/-- `element.find(tag)`: first child with the given tag. -/
def findChild (e : Elem) (t : String) : Option Elem :=
  e.children.find? (fun c => c.tag == t)

/-- The `.text` of the first child with the given tag. -/
def textOf (e : Elem) (t : String) : Option String :=
  (findChild e t).bind Elem.text

/-- The `sequence` element of an exported document. -/
def seqElem (doc : Elem) : Option Elem := findChild doc "sequence"

/-- The sequence-level `duration` text of an exported document. -/
def seqDurationText (doc : Elem) : Option String :=
  (seqElem doc).bind (fun sq => textOf sq "duration")

/-- The single `track` element of an exported document. -/
def trackElem (doc : Elem) : Option Elem :=
  (((seqElem doc).bind (fun sq => findChild sq "media")).bind
    (fun m => findChild m "video")).bind (fun v => findChild v "track")

/-- The clip items of an exported document. -/
def clipsOf (doc : Elem) : List Elem :=
  match trackElem doc with
  | some tr => tr.children.filter (fun c => c.tag == "clipitem")
  | none => []

/-- The `i`-th clip item of an exported document. -/
def clipOf (doc : Elem) (i : ℕ) : Option Elem := (clipsOf doc).get? i

/-- The text of the named child of the `i`-th clip item. -/
def clipText (doc : Elem) (i : ℕ) (t : String) : Option String :=
  (clipOf doc i).bind (fun c => textOf c t)

/-- The `marker` children of a clip item. -/
def markersOf (c : Elem) : List Elem :=
  c.children.filter (fun m => m.tag == "marker")

/-- The spec's export scenario: sections Intro (0 s to 10 s) and
Hall (10 s to 25.5 s). -/
def scenarioLaps : List Lap :=
  [{ start_time := 0, end_time := 10, duration := 10, title := "Intro" },
   { start_time := 10, end_time := 51/2, duration := 31/2, title := "Hall" }]

/-- The procedural contiguity invariant of the lap list: adjacent sections
share a boundary and `current_lap_start` equals the last closed lap's end. -/
def LapsChained (s : SessionState) : Prop :=
  List.Chain' (fun a b => a.end_time = b.start_time) s.laps ∧
  ∀ lst, s.laps.getLast? = some lst → s.current_lap_start = lst.end_time

/-- Every stored duration equals the derived `end_time - start_time`. -/
def DurOk (s : SessionState) : Prop :=
  ∀ lap ∈ s.laps, lap.duration = lap.end_time - lap.start_time

/-- Well-formedness of the timer: a running timer has a start instant. -/
def WFRun (s : SessionState) : Prop :=
  s.running = true → s.start_time.isSome = true

/- ------------------------------------------------------------------ -/
/- Helper lemmas                                                      -/
/- ------------------------------------------------------------------ -/

theorem pyInt_of_nonneg {q : ℚ} (h : 0 ≤ q) : pyInt q = ⌊q⌋ := if_pos h

theorem pymod_def (x y : ℚ) : pymod x y = x - y * ⌊x / y⌋ := rfl

theorem pymod_nonneg (x : ℚ) {y : ℚ} (hy : 0 < y) : 0 ≤ pymod x y := by
  have h := Int.floor_le (x / y)
  have h2 : y * ((⌊x / y⌋ : ℤ) : ℚ) ≤ y * (x / y) :=
    mul_le_mul_of_nonneg_left h hy.le
  have h3 : y * (x / y) = x := by field_simp
  unfold pymod
  linarith

/-- C4: for every non-negative number of seconds, `format_time` returns
`HH:MM:SS.mmm` with hours `⌊s/3600⌋`, minutes `⌊(s mod 3600)/60⌋`, whole
seconds `⌊s mod 60⌋`, milliseconds `⌊(s mod 1)·1000⌋`, each zero-padded
(2 digits for H/M/S, 3 for ms); in particular
`format_time 125.678 = "00:02:05.678"`. -/
theorem c4_format_time :
    (∀ s : ℚ, 0 ≤ s → format_time s = format_time_spec s) ∧
    format_time (125678/1000) = "00:02:05.678" := by
  constructor
  · intro s _hs
    have hm60 : (0:ℚ) ≤ pymod s 60 := pymod_nonneg s (by norm_num)
    have hm1 : (0:ℚ) ≤ pymod s 1 := pymod_nonneg s one_pos
    have e3 : pyInt (pymod s 60) = ⌊s - 60 * ⌊s / 60⌋⌋ := pyInt_of_nonneg hm60
    have e4 : pyInt (pymod s 1 * 1000) = ⌊(s - (⌊s⌋ : ℚ)) * 1000⌋ := by
      rw [pyInt_of_nonneg (mul_nonneg hm1 (by norm_num))]
      norm_num [pymod]
    simp only [format_time, format_time_spec, e3, e4]
    rfl
  · simp only [format_time, pymod, pyInt]
    norm_num
    decide

/-- Witness for C4 at the concrete input `s = 5/2`. -/
theorem c4_format_time_witness : format_time (5/2) = format_time_spec (5/2) :=
  c4_format_time.1 (5/2) (by norm_num)

/-- C2: `timecode_to_frames` maps seconds to frames by truncation
(`⌊seconds * fps⌋` on non-negative inputs), is monotonically non-decreasing
in seconds, and at fps = 30 maps 1.999 s to 59 frames, 2.0 s to 60 frames
and 2.001 s to 60 frames. -/
theorem c2_timecode_to_frames :
    (∀ s fps : ℚ, 0 ≤ s → 0 ≤ fps → timecode_to_frames s fps = ⌊s * fps⌋) ∧
    (∀ s1 s2 fps : ℚ, 0 ≤ s1 → s1 ≤ s2 → 0 ≤ fps →
        timecode_to_frames s1 fps ≤ timecode_to_frames s2 fps) ∧
    timecode_to_frames (1999/1000) 30 = 59 ∧
    timecode_to_frames 2 30 = 60 ∧
    timecode_to_frames (2001/1000) 30 = 60 := by
  refine ⟨?_, ?_, ?_, ?_, ?_⟩
  · intro s fps hs hf
    exact pyInt_of_nonneg (mul_nonneg hs hf)
  · intro s1 s2 fps h1 h12 hf
    have e1 : timecode_to_frames s1 fps = ⌊s1 * fps⌋ :=
      pyInt_of_nonneg (mul_nonneg h1 hf)
    have e2 : timecode_to_frames s2 fps = ⌊s2 * fps⌋ :=
      pyInt_of_nonneg (mul_nonneg (h1.trans h12) hf)
    rw [e1, e2]
    exact Int.floor_le_floor (mul_le_mul_of_nonneg_right h12 hf)
  · simp only [timecode_to_frames, pyInt]
    norm_num
  · simp only [timecode_to_frames, pyInt]
    norm_num
  · simp only [timecode_to_frames, pyInt]
    norm_num

/-- Witness for C2 at concrete inputs. -/
theorem c2_timecode_to_frames_witness :
    timecode_to_frames 2 30 = ⌊(2:ℚ) * 30⌋ ∧
    timecode_to_frames 1 30 ≤ timecode_to_frames 2 30 :=
  ⟨c2_timecode_to_frames.1 2 30 (by norm_num) (by norm_num),
   c2_timecode_to_frames.2.1 1 2 30 (by norm_num) (by norm_num) (by norm_num)⟩

/-- C7: starting while already running leaves the entire timer state
unchanged, and pausing while not running leaves the entire timer state
unchanged; invalid state transitions never corrupt state. -/
theorem c7_invalid_transitions (s : SessionState) (now : ℚ) :
    (s.running = true → startOp s now = s) ∧
    (s.running = false → pauseOp s now = s) := by
  constructor
  · intro h
    simp [startOp, h]
  · intro h
    simp [pauseOp, h]

/-- Witness for C7: a running state is unchanged by Start, the initial
(paused) state is unchanged by Pause. -/
theorem c7_invalid_transitions_witness :
    startOp { initSession with running := true, start_time := some 1 } 5
      = { initSession with running := true, start_time := some 1 } ∧
    pauseOp initSession 5 = initSession :=
  ⟨(c7_invalid_transitions { initSession with running := true, start_time := some 1 } 5).1 rfl,
   (c7_invalid_transitions initSession 5).2 rfl⟩

/-- C10: Reset All sets exactly the five timer fields (`running := false`,
`start_time := none`, `elapsed_time := 0`, `laps := []`,
`current_lap_start := 0`) and leaves the stored audio data, transcription,
script, generated narration audio, sound-effect results and music request
unchanged. -/
theorem c10_reset_frame (s : SessionState) :
    (resetOp s).running = false ∧ (resetOp s).start_time = none ∧
    (resetOp s).elapsed_time = 0 ∧ (resetOp s).laps = [] ∧
    (resetOp s).current_lap_start = 0 ∧
    (resetOp s).audio_data = s.audio_data ∧
    (resetOp s).transcription = s.transcription ∧
    (resetOp s).script = s.script ∧
    (resetOp s).generated_audio = s.generated_audio ∧
    (resetOp s).music_request = s.music_request ∧
    (resetOp s).sfx_requests = s.sfx_requests :=
  ⟨rfl, rfl, rfl, rfl, rfl, rfl, rfl, rfl, rfl, rfl, rfl⟩

/-- Witness for C10 at a concrete non-trivial session state. -/
theorem c10_reset_frame_witness :
    (resetOp { initSession with transcription := "notes", running := true }).running = false ∧
    (resetOp { initSession with transcription := "notes", running := true }).start_time = none ∧
    (resetOp { initSession with transcription := "notes", running := true }).elapsed_time = 0 ∧
    (resetOp { initSession with transcription := "notes", running := true }).laps = [] ∧
    (resetOp { initSession with transcription := "notes", running := true }).current_lap_start = 0 ∧
    (resetOp { initSession with transcription := "notes", running := true }).audio_data
      = ({ initSession with transcription := "notes", running := true } : SessionState).audio_data ∧
    (resetOp { initSession with transcription := "notes", running := true }).transcription
      = ({ initSession with transcription := "notes", running := true } : SessionState).transcription ∧
    (resetOp { initSession with transcription := "notes", running := true }).script
      = ({ initSession with transcription := "notes", running := true } : SessionState).script ∧
    (resetOp { initSession with transcription := "notes", running := true }).generated_audio
      = ({ initSession with transcription := "notes", running := true } : SessionState).generated_audio ∧
    (resetOp { initSession with transcription := "notes", running := true }).music_request
      = ({ initSession with transcription := "notes", running := true } : SessionState).music_request ∧
    (resetOp { initSession with transcription := "notes", running := true }).sfx_requests
      = ({ initSession with transcription := "notes", running := true } : SessionState).sfx_requests :=
  c10_reset_frame { initSession with transcription := "notes", running := true }

/-- C8: exporting an empty section list at any frame rate yields a document
whose sequence duration is 0 and which contains zero clip items. -/
theorem c8_empty_export (fps : ℤ) :
    seqDurationText (generate_resolve_xml [] fps) = some "0" ∧
    clipsOf (generate_resolve_xml [] fps) = [] :=
  ⟨rfl, rfl⟩

/-- Witness for C8 at fps = 30. -/
theorem c8_empty_export_witness :
    seqDurationText (generate_resolve_xml [] 30) = some "0" ∧
    clipsOf (generate_resolve_xml [] 30) = [] :=
  c8_empty_export 30

theorem renameLaps_length (laps : List Lap) : ∀ (i : ℕ) (t : String),
    (renameLaps laps i t).length = laps.length := by
  induction laps with
  | nil => intro i t; rfl
  | cons lap rest ih =>
    intro i t
    cases i with
    | zero => rfl
    | succ i => simp [renameLaps, ih i t]

theorem renameLaps_get?_ne (laps : List Lap) : ∀ (i : ℕ) (t : String) (j : ℕ), j ≠ i →
    (renameLaps laps i t).get? j = laps.get? j := by
  induction laps with
  | nil => intro i t j _; rfl
  | cons lap rest ih =>
    intro i t j hne
    cases i with
    | zero =>
      cases j with
      | zero => exact absurd rfl hne
      | succ j => rfl
    | succ i =>
      cases j with
      | zero => rfl
      | succ j => simpa [renameLaps] using ih i t j (fun h => hne (by rw [h]))

theorem renameLaps_get?_eq (laps : List Lap) : ∀ (i : ℕ) (t : String) (lap : Lap),
    laps.get? i = some lap →
    (renameLaps laps i t).get? i = some { lap with title := t } := by
  induction laps with
  | nil => intro i t lap h; exact absurd h (by simp)
  | cons a rest ih =>
    intro i t lap h
    cases i with
    | zero =>
      obtain rfl : a = lap := by simpa using h
      rfl
    | succ i => simpa [renameLaps] using ih i t lap (by simpa using h)

theorem laps_eraseIdx_length (l : List Lap) : ∀ (i : ℕ), i < l.length →
    (l.eraseIdx i).length = l.length - 1 := by
  induction l with
  | nil => intro i h; simp at h
  | cons a rest ih =>
    intro i h
    cases i with
    | zero => simp [List.eraseIdx]
    | succ i =>
      have h' : i < rest.length := by simpa using h
      simp [List.eraseIdx, ih i h']
      omega

theorem laps_eraseIdx_get?_lt (l : List Lap) : ∀ (i j : ℕ), j < i →
    (l.eraseIdx i).get? j = l.get? j := by
  induction l with
  | nil => intro i j _; rfl
  | cons a rest ih =>
    intro i j h
    cases i with
    | zero => omega
    | succ i =>
      cases j with
      | zero => rfl
      | succ j => simpa [List.eraseIdx] using ih i j (by omega)

theorem laps_eraseIdx_get?_ge (l : List Lap) : ∀ (i j : ℕ), i ≤ j →
    (l.eraseIdx i).get? j = l.get? (j + 1) := by
  induction l with
  | nil => intro i j _; rfl
  | cons a rest ih =>
    intro i j h
    cases i with
    | zero => rfl
    | succ i =>
      cases j with
      | zero => omega
      | succ j => simpa [List.eraseIdx] using ih i j (by omega)

/-- C9: renaming section `i` replaces only its title, leaving every
section's timestamps unchanged; deleting section `i` removes exactly that
record, leaving every other record unchanged (indices above `i` shift down
by one, timestamps are not re-linked). -/
theorem c9_rename_delete :
    (∀ (s : SessionState) (i : ℕ) (t : String),
        (renameOp s i t).laps.length = s.laps.length) ∧
    (∀ (s : SessionState) (i : ℕ) (t : String) (j : ℕ), j ≠ i →
        (renameOp s i t).laps.get? j = s.laps.get? j) ∧
    (∀ (s : SessionState) (i : ℕ) (t : String) (lap : Lap),
        s.laps.get? i = some lap →
        (renameOp s i t).laps.get? i = some { lap with title := t }) ∧
    (∀ (s : SessionState) (i : ℕ), i < s.laps.length →
        (deleteOp s i).laps.length = s.laps.length - 1) ∧
    (∀ (s : SessionState) (i j : ℕ), j < i →
        (deleteOp s i).laps.get? j = s.laps.get? j) ∧
    (∀ (s : SessionState) (i j : ℕ), i ≤ j →
        (deleteOp s i).laps.get? j = s.laps.get? (j + 1)) :=
  ⟨fun s i t => renameLaps_length s.laps i t,
   fun s i t j h => renameLaps_get?_ne s.laps i t j h,
   fun s i t lap h => renameLaps_get?_eq s.laps i t lap h,
   fun s i h => laps_eraseIdx_length s.laps i h,
   fun s i j h => laps_eraseIdx_get?_lt s.laps i j h,
   fun s i j h => laps_eraseIdx_get?_ge s.laps i j h⟩

/-- Witness for C9 on a concrete two-section list. -/
theorem c9_rename_delete_witness :
    (renameOp { initSession with laps := [⟨0,1,1,"A"⟩, ⟨1,2,1,"B"⟩] } 0 "X").laps.get? 1
      = ({ initSession with laps := [⟨0,1,1,"A"⟩, ⟨1,2,1,"B"⟩] } : SessionState).laps.get? 1 ∧
    (deleteOp { initSession with laps := [⟨0,1,1,"A"⟩, ⟨1,2,1,"B"⟩] } 0).laps.get? 0
      = ({ initSession with laps := [⟨0,1,1,"A"⟩, ⟨1,2,1,"B"⟩] } : SessionState).laps.get? 1 :=
  ⟨c9_rename_delete.2.1 _ 0 "X" 1 (by decide),
   c9_rename_delete.2.2.2.2.2 _ 0 0 (by decide)⟩

theorem renameLaps_mem (laps : List Lap) : ∀ (i : ℕ) (t : String) (l : Lap),
    l ∈ renameLaps laps i t →
    ∃ l0 ∈ laps, l.start_time = l0.start_time ∧ l.end_time = l0.end_time ∧
      l.duration = l0.duration := by
  induction laps with
  | nil => intro i t l h; simp [renameLaps] at h
  | cons a rest ih =>
    intro i t l h
    cases i with
    | zero =>
      rcases List.mem_cons.mp h with rfl | hm
      · exact ⟨a, List.mem_cons_self a rest, rfl, rfl, rfl⟩
      · exact ⟨l, List.mem_cons_of_mem a hm, rfl, rfl, rfl⟩
    | succ i =>
      rcases List.mem_cons.mp h with rfl | hm
      · exact ⟨l, List.mem_cons_self l rest, rfl, rfl, rfl⟩
      · obtain ⟨l0, hl0, hrest⟩ := ih i t l hm
        exact ⟨l0, List.mem_cons_of_mem a hl0, hrest⟩

theorem mem_of_eraseIdx (l : List Lap) : ∀ (i : ℕ) (a : Lap),
    a ∈ l.eraseIdx i → a ∈ l := by
  induction l with
  | nil => intro i a h; simp [List.eraseIdx] at h
  | cons x rest ih =>
    intro i a h
    cases i with
    | zero => exact List.mem_cons_of_mem x h
    | succ i =>
      rcases List.mem_cons.mp h with rfl | hm
      · exact List.mem_cons_self a rest
      · exact List.mem_cons_of_mem x (ih i a hm)

theorem applyOp_durok (s : SessionState) (op : Op) (h : DurOk s) :
    DurOk (applyOp s op) := by
  cases op with
  | start now =>
    intro lap hm
    apply h
    simp only [applyOp, startOp] at hm
    split at hm
    · exact hm
    · exact hm
  | pause now =>
    intro lap hm
    apply h
    simp only [applyOp, pauseOp] at hm
    split at hm
    · exact hm
    · exact hm
  | stopLap now =>
    intro lap hm
    simp only [applyOp, stopLapOp] at hm
    split at hm
    · exact h lap hm
    · rcases List.mem_append.mp hm with hmem | hnew
      · exact h lap hmem
      · obtain rfl := List.mem_singleton.mp hnew
        rfl
  | reset =>
    intro lap hm
    simp [applyOp, resetOp] at hm
  | rename i t =>
    intro lap hm
    have hm' : lap ∈ renameLaps s.laps i t := hm
    obtain ⟨l0, hl0, hs, he, hd⟩ := renameLaps_mem s.laps i t lap hm'
    rw [hs, he, hd]
    exact h l0 hl0
  | delete i =>
    intro lap hm
    exact h lap (mem_of_eraseIdx s.laps i lap hm)

theorem runOps_durok (ops : List Op) : ∀ (s : SessionState), DurOk s →
    DurOk (runOps s ops) := by
  induction ops with
  | nil => intro s h; exact h
  | cons op rest ih => intro s h; exact ih (applyOp s op) (applyOp_durok s op h)

/-- C5: every section record appended by Stop Lap satisfies
`duration = end_time - start_time`, and this holds for every section in the
list after any sequence of timer operations (rename and delete do not alter
timing fields). -/
theorem c5_duration_invariant (ops : List Op) (lap : Lap)
    (h : lap ∈ (runOps initSession ops).laps) :
    lap.duration = lap.end_time - lap.start_time :=
  runOps_durok ops initSession (fun l hl => absurd hl (by simp [initSession])) lap h

/-- Witness for C5: the lap closed at instant 5 after starting at 0. -/
theorem c5_duration_invariant_witness :
    (⟨0, 5, 5, "Section 1"⟩ : Lap).duration
      = (⟨0, 5, 5, "Section 1"⟩ : Lap).end_time
        - (⟨0, 5, 5, "Section 1"⟩ : Lap).start_time :=
  c5_duration_invariant [Op.start 0, Op.stopLap 5] ⟨0, 5, 5, "Section 1"⟩
    (by
      norm_num [runOps, applyOp, startOp, stopLapOp, current_elapsed, initSession]
      decide)

theorem applyOp_wf (s : SessionState) (op : Op) (h : WFRun s) :
    WFRun (applyOp s op) := by
  cases op with
  | start now =>
    simp only [applyOp, startOp]
    split
    · exact h
    · intro _; rfl
  | pause now =>
    simp only [applyOp, pauseOp]
    split
    · intro hc; exact absurd hc (by simp)
    · exact h
  | stopLap now =>
    simp only [applyOp, stopLapOp]
    split
    · exact h
    · exact h
  | reset => intro hc; exact absurd hc (by simp [applyOp, resetOp])
  | rename i t => exact h
  | delete i => exact h

theorem runOps_wf (ops : List Op) : ∀ (s : SessionState), WFRun s →
    WFRun (runOps s ops) := by
  induction ops with
  | nil => intro s h; exact h
  | cons op rest ih => intro s h; exact ih (applyOp s op) (applyOp_wf s op h)

theorem pause_keeps_elapsed (s : SessionState) (now : ℚ)
    (hrun : s.running = true) (hst : s.start_time.isSome = true) :
    current_elapsed (pauseOp s now) now = current_elapsed s now := by
  obtain ⟨t, ht⟩ := Option.isSome_iff_exists.mp hst
  simp [pauseOp, current_elapsed, hrun, ht]

/-- C6: for every timer state reachable by a sequence of operations and
currently running, pausing at instant `now` leaves the current-elapsed
query at `now` unchanged. -/
theorem c6_pause_preserves_elapsed (ops : List Op) (now : ℚ)
    (h : (runOps initSession ops).running = true) :
    current_elapsed (pauseOp (runOps initSession ops) now) now
      = current_elapsed (runOps initSession ops) now :=
  pause_keeps_elapsed _ now h
    (runOps_wf ops initSession (fun hc => absurd hc (by simp [initSession])) h)

/-- Witness for C6: start at instant 2, pause at instant 7. -/
theorem c6_pause_preserves_elapsed_witness :
    current_elapsed (pauseOp (runOps initSession [Op.start 2]) 7) 7
      = current_elapsed (runOps initSession [Op.start 2]) 7 :=
  c6_pause_preserves_elapsed [Op.start 2] 7 rfl

theorem stopLapOp_of_running (s : SessionState) (t : ℚ) (hrun : s.running = true) :
    stopLapOp s t =
      { s with laps := s.laps ++ [closedLap s t],
               current_lap_start := current_elapsed s t } := by
  have hcond : ¬(s.running = false ∧ s.elapsed_time = 0) := by
    rintro ⟨h1, -⟩
    rw [hrun] at h1
    exact Bool.noConfusion h1
  unfold stopLapOp
  rw [if_neg hcond]
  rfl

theorem stopLap_chained (s : SessionState) (t : ℚ) (hrun : s.running = true)
    (hch : LapsChained s) : LapsChained (stopLapOp s t) := by
  rw [stopLapOp_of_running s t hrun]
  constructor
  · refine List.chain'_append.mpr ⟨hch.1, List.chain'_singleton _, ?_⟩
    intro x hx y hy
    have hx' : s.laps.getLast? = some x := hx
    have hy2 : some (closedLap s t) = some y := hy
    cases hy2
    exact (hch.2 x hx').symm
  · intro lst hlast
    have h2 : (s.laps ++ [closedLap s t]).getLast? = some lst := hlast
    rw [List.getLast?_concat] at h2
    cases h2
    rfl

theorem runOps_stopLaps (ts : List ℚ) : ∀ (s : SessionState),
    s.running = true → LapsChained s →
    (runOps s (ts.map Op.stopLap)).running = true ∧
    (runOps s (ts.map Op.stopLap)).laps.length = s.laps.length + ts.length ∧
    LapsChained (runOps s (ts.map Op.stopLap)) := by
  induction ts with
  | nil => intro s h hch; exact ⟨h, by simp [runOps], hch⟩
  | cons t ts ih =>
    intro s h hch
    have hstep := stopLapOp_of_running s t h
    have hrun' : (stopLapOp s t).running = true := by rw [hstep]; exact h
    have hlen' : (stopLapOp s t).laps.length = s.laps.length + 1 := by
      rw [hstep]; simp
    have hch' := stopLap_chained s t h hch
    have hr : runOps s ((t :: ts).map Op.stopLap)
        = runOps (stopLapOp s t) (ts.map Op.stopLap) := rfl
    rw [hr]
    obtain ⟨a, b, c⟩ := ih (stopLapOp s t) hrun' hch'
    refine ⟨a, ?_, c⟩
    rw [b, hlen']
    simp only [List.length_cons]
    omega

theorem chain'_get? {R : Lap → Lap → Prop} (l : List Lap) :
    List.Chain' R l → ∀ (i : ℕ) (a b : Lap),
      l.get? i = some a → l.get? (i + 1) = some b → R a b := by
  induction l with
  | nil => intro _ i a b ha _; simp at ha
  | cons x rest ih =>
    intro hch i a b ha hb
    rw [List.chain'_cons'] at hch
    cases i with
    | zero =>
      obtain rfl : x = a := by simpa using ha
      have hh : rest.head? = some b := by
        cases rest with
        | nil => simp at hb
        | cons r rs => simpa using hb
      exact hch.1 b hh
    | succ i => exact ih hch.2 i a b (by simpa using ha) (by simpa using hb)

/-- C1: after `n ≥ 1` consecutive stop-lap operations (no pauses in
between) starting from the initial state with the timer started, the
section list has length `n`, adjacent sections satisfy
`section[i].end_time = section[i+1].start_time`, and `current_lap_start`
equals the last closed lap's `end_time`. -/
theorem c1_stop_lap_contiguity (n : ℕ) (_hn : 1 ≤ n) (now0 : ℚ) (ts : List ℚ)
    (hlen : ts.length = n) :
    (runOps (startOp initSession now0) (ts.map Op.stopLap)).laps.length = n ∧
    (∀ (i : ℕ) (a b : Lap),
        (runOps (startOp initSession now0) (ts.map Op.stopLap)).laps.get? i = some a →
        (runOps (startOp initSession now0) (ts.map Op.stopLap)).laps.get? (i + 1) = some b →
        a.end_time = b.start_time) ∧
    (∀ lst, (runOps (startOp initSession now0) (ts.map Op.stopLap)).laps.getLast? = some lst →
        (runOps (startOp initSession now0) (ts.map Op.stopLap)).current_lap_start
          = lst.end_time) := by
  have hrun : (startOp initSession now0).running = true := rfl
  have hch : LapsChained (startOp initSession now0) := by
    constructor
    · exact List.chain'_nil
    · intro lst h
      exact Option.noConfusion h
  obtain ⟨-, hlen', hch'⟩ := runOps_stopLaps ts (startOp initSession now0) hrun hch
  refine ⟨?_, ?_, hch'.2⟩
  · have h0 : (startOp initSession now0).laps.length = 0 := rfl
    rw [hlen', h0, hlen]
    omega
  · intro i a b ha hb
    exact chain'_get? _ hch'.1 i a b ha hb

/-- Witness for C1: two stop-laps at instants 1 and 3 from a start at 0. -/
theorem c1_stop_lap_contiguity_witness :
    (runOps (startOp initSession 0) ([1, 3].map Op.stopLap)).laps.length = 2 ∧
    (∀ (i : ℕ) (a b : Lap),
        (runOps (startOp initSession 0) ([1, 3].map Op.stopLap)).laps.get? i = some a →
        (runOps (startOp initSession 0) ([1, 3].map Op.stopLap)).laps.get? (i + 1) = some b →
        a.end_time = b.start_time) ∧
    (∀ lst, (runOps (startOp initSession 0) ([1, 3].map Op.stopLap)).laps.getLast? = some lst →
        (runOps (startOp initSession 0) ([1, 3].map Op.stopLap)).current_lap_start
          = lst.end_time) :=
  c1_stop_lap_contiguity 2 (by norm_num) 0 [1, 3] rfl

theorem clipItemsFrom_filter (fps : ℤ) (laps : List Lap) : ∀ (k : ℕ),
    (clipItemsFrom fps k laps).filter (fun c => c.tag == "clipitem")
      = clipItemsFrom fps k laps := by
  induction laps with
  | nil => intro k; rfl
  | cons lap rest ih =>
    intro k
    have hpa : ((clipItem fps k lap).tag == "clipitem") = true := rfl
    simp only [clipItemsFrom, List.filter_cons, hpa, if_pos]
    rw [ih (k + 1)]

theorem trackElem_export (laps : List Lap) (fps : ℤ) :
    trackElem (generate_resolve_xml laps fps)
      = some (Elem.mk "track" [] none (clipItemsFrom fps 0 laps)) := rfl

theorem clipsOf_export (laps : List Lap) (fps : ℤ) :
    clipsOf (generate_resolve_xml laps fps) = clipItemsFrom fps 0 laps := by
  simp only [clipsOf, trackElem_export, Elem.children]
  exact clipItemsFrom_filter fps laps 0

theorem clipItemsFrom_get? (fps : ℤ) (laps : List Lap) : ∀ (k i : ℕ),
    (clipItemsFrom fps k laps).get? i
      = (laps.get? i).map (fun lap => clipItem fps (k + i) lap) := by
  induction laps with
  | nil => intro k i; rfl
  | cons lap rest ih =>
    intro k i
    cases i with
    | zero => simp [clipItemsFrom]
    | succ i =>
      have e : k + 1 + i = k + (i + 1) := by omega
      show (clipItemsFrom fps (k + 1) rest).get? i
        = (rest.get? i).map (fun lap => clipItem fps (k + (i + 1)) lap)
      rw [ih (k + 1) i, ← e]

theorem clipOf_export (laps : List Lap) (fps : ℤ) (i : ℕ) :
    clipOf (generate_resolve_xml laps fps) i
      = (laps.get? i).map (fun lap => clipItem fps i lap) := by
  rw [clipOf, clipsOf_export, clipItemsFrom_get?]
  simp

theorem clipItem_fields (fps : ℤ) (i : ℕ) (lap : Lap) :
    textOf (clipItem fps i lap) "name" = some lap.title ∧
    textOf (clipItem fps i lap) "duration"
      = some (toString (timecode_to_frames lap.duration fps)) ∧
    textOf (clipItem fps i lap) "in" = some "0" ∧
    textOf (clipItem fps i lap) "out"
      = some (toString (timecode_to_frames lap.duration fps)) ∧
    textOf (clipItem fps i lap) "start"
      = some (toString (timecode_to_frames lap.start_time fps)) ∧
    textOf (clipItem fps i lap) "end"
      = some (toString (timecode_to_frames lap.end_time fps)) ∧
    (clipItem fps i lap).attrs = [("id", "clipitem-" ++ toString (i + 1))] ∧
    markersOf (clipItem fps i lap)
      = [Elem.mk "marker" [] none
          [Elem.mk "name" [] (some lap.title) [],
           Elem.mk "comment" [] (some ("Duration: " ++ format_time lap.duration)) [],
           Elem.mk "in" [] (some (toString (timecode_to_frames lap.start_time fps))) [],
           Elem.mk "out" [] (some (toString (timecode_to_frames lap.end_time fps))) []]] :=
  ⟨rfl, rfl, rfl, rfl, rfl, rfl, rfl, rfl⟩

/-- C3: each exported clip item carries the section's title, truncated frame
counts for duration, in/out (clip-internal) and start/end (timeline-absolute),
the 1-based clip id, and one child marker whose in/out equal the clip's
timeline-absolute start/end frames; the sequence duration is the frame count
of the last section's end time; on the spec scenario (Intro 0 s to 10 s, Hall
10 s to 25.5 s, fps 25) clip 1 has duration 250, start 0, end 250, clip 2 has
duration 387, start 250, end 637, and the sequence duration is 637. -/
theorem c3_export_clips :
    (∀ (laps : List Lap) (fps : ℤ) (i : ℕ) (lap : Lap), laps.get? i = some lap →
      clipText (generate_resolve_xml laps fps) i "name" = some lap.title ∧
      clipText (generate_resolve_xml laps fps) i "duration"
        = some (toString (timecode_to_frames lap.duration fps)) ∧
      clipText (generate_resolve_xml laps fps) i "in" = some "0" ∧
      clipText (generate_resolve_xml laps fps) i "out"
        = some (toString (timecode_to_frames lap.duration fps)) ∧
      clipText (generate_resolve_xml laps fps) i "start"
        = some (toString (timecode_to_frames lap.start_time fps)) ∧
      clipText (generate_resolve_xml laps fps) i "end"
        = some (toString (timecode_to_frames lap.end_time fps)) ∧
      (clipOf (generate_resolve_xml laps fps) i).map Elem.attrs
        = some [("id", "clipitem-" ++ toString (i + 1))] ∧
      (∃ m : Elem, (clipOf (generate_resolve_xml laps fps) i).map markersOf = some [m] ∧
        textOf m "name" = some lap.title ∧
        textOf m "in" = some (toString (timecode_to_frames lap.start_time fps)) ∧
        textOf m "out" = some (toString (timecode_to_frames lap.end_time fps)))) ∧
    (∀ (laps : List Lap) (fps : ℤ) (lst : Lap), laps.getLast? = some lst →
      seqDurationText (generate_resolve_xml laps fps)
        = some (toString (timecode_to_frames lst.end_time fps))) ∧
    (clipText (generate_resolve_xml scenarioLaps 25) 0 "duration" = some "250" ∧
     clipText (generate_resolve_xml scenarioLaps 25) 0 "start" = some "0" ∧
     clipText (generate_resolve_xml scenarioLaps 25) 0 "end" = some "250" ∧
     clipText (generate_resolve_xml scenarioLaps 25) 1 "duration" = some "387" ∧
     clipText (generate_resolve_xml scenarioLaps 25) 1 "start" = some "250" ∧
     clipText (generate_resolve_xml scenarioLaps 25) 1 "end" = some "637" ∧
     seqDurationText (generate_resolve_xml scenarioLaps 25) = some "637") := by
  have hv0 : timecode_to_frames (0:ℚ) ((25:ℤ):ℚ) = 0 := by
    simp only [timecode_to_frames, pyInt]
    norm_num
  have hv250 : timecode_to_frames (10:ℚ) ((25:ℤ):ℚ) = 250 := by
    simp only [timecode_to_frames, pyInt]
    norm_num
  have hv387 : timecode_to_frames (31/2 : ℚ) ((25:ℤ):ℚ) = 387 := by
    simp only [timecode_to_frames, pyInt]
    norm_num
  have hv637 : timecode_to_frames (51/2 : ℚ) ((25:ℤ):ℚ) = 637 := by
    simp only [timecode_to_frames, pyInt]
    norm_num
  refine ⟨?_, ?_, ?_, ?_, ?_, ?_, ?_, ?_, ?_⟩
  · intro laps fps i lap h
    have hc : clipOf (generate_resolve_xml laps fps) i = some (clipItem fps i lap) := by
      rw [clipOf_export, h]
      rfl
    obtain ⟨f1, f2, f3, f4, f5, f6, f7, f8⟩ := clipItem_fields fps i lap
    refine ⟨?_, ?_, ?_, ?_, ?_, ?_, ?_, ?_⟩
    · simp only [clipText, hc]
      exact f1
    · simp only [clipText, hc]
      exact f2
    · simp only [clipText, hc]
      exact f3
    · simp only [clipText, hc]
      exact f4
    · simp only [clipText, hc]
      exact f5
    · simp only [clipText, hc]
      exact f6
    · rw [hc]
      exact congrArg some f7
    · refine ⟨Elem.mk "marker" [] none
          [Elem.mk "name" [] (some lap.title) [],
           Elem.mk "comment" [] (some ("Duration: " ++ format_time lap.duration)) [],
           Elem.mk "in" [] (some (toString (timecode_to_frames lap.start_time fps))) [],
           Elem.mk "out" [] (some (toString (timecode_to_frames lap.end_time fps))) []],
        ?_, rfl, rfl, rfl⟩
      rw [hc]
      exact congrArg some f8
  · intro laps fps lst h
    have e : seqDurationText (generate_resolve_xml laps fps)
        = some (toString (match laps.getLast? with
            | some lap => timecode_to_frames lap.end_time (fps : ℚ)
            | none => 0)) := rfl
    rw [e, h]
  · have e : clipText (generate_resolve_xml scenarioLaps 25) 0 "duration"
        = some (toString (timecode_to_frames (10:ℚ) ((25:ℤ):ℚ))) := rfl
    rw [e, hv250]
    rfl
  · have e : clipText (generate_resolve_xml scenarioLaps 25) 0 "start"
        = some (toString (timecode_to_frames (0:ℚ) ((25:ℤ):ℚ))) := rfl
    rw [e, hv0]
    rfl
  · have e : clipText (generate_resolve_xml scenarioLaps 25) 0 "end"
        = some (toString (timecode_to_frames (10:ℚ) ((25:ℤ):ℚ))) := rfl
    rw [e, hv250]
    rfl
  · have e : clipText (generate_resolve_xml scenarioLaps 25) 1 "duration"
        = some (toString (timecode_to_frames (31/2:ℚ) ((25:ℤ):ℚ))) := rfl
    rw [e, hv387]
    rfl
  · have e : clipText (generate_resolve_xml scenarioLaps 25) 1 "start"
        = some (toString (timecode_to_frames (10:ℚ) ((25:ℤ):ℚ))) := rfl
    rw [e, hv250]
    rfl
  · have e : clipText (generate_resolve_xml scenarioLaps 25) 1 "end"
        = some (toString (timecode_to_frames (51/2:ℚ) ((25:ℤ):ℚ))) := rfl
    rw [e, hv637]
    rfl
  · have e : seqDurationText (generate_resolve_xml scenarioLaps 25)
        = some (toString (timecode_to_frames (51/2:ℚ) ((25:ℤ):ℚ))) := rfl
    rw [e, hv637]
    rfl

/-- Witness for C3: the first clip of a one-section export carries the
section's title. -/
theorem c3_export_clips_witness :
    clipText (generate_resolve_xml [⟨0, 10, 10, "Intro"⟩] 30) 0 "name" = some "Intro" :=
  (c3_export_clips.1 [⟨0, 10, 10, "Intro"⟩] 30 0 ⟨0, 10, 10, "Intro"⟩ rfl).1

end AudioHub
